import Mathlib

/-!
Verification of the scoring / classification / deduplication core of the
vc-sourcing-agent repository, shallowly embedded in Lean 4.

Python strings are modelled as Lean `String`; `None`-able values as
`Option`; Python `dict.get` with a default as `Option.getD` (for record
fields) or association-list lookup (for the weights mapping); integer
scores as `Int`.  Python's substring operator `in` is modelled by
`containsSub` below, and `str.lower()` by `strLower` (ASCII case folding,
which agrees with Python on the ASCII texts the configuration constants
use).
-/

namespace VCSourcing

/-- Membership test of `c` in a list of characters (regex character-class
style membership). -/
def charIn (c : Char) (cs : List Char) : Bool :=
  cs.contains c

/-- Lower-casing of a character: ASCII fold, as in `Char.toLower`. -/
def lowChar (c : Char) : Char := c.toLower

/-- Python `s.lower()` (ASCII scope). -/
def strLower (s : String) : String :=
  ⟨s.data.map lowChar⟩

/-- Does list `p` occur as a leading segment of list `l`?  Helper for the
substring test. -/
def leadSeg : List Char → List Char → Bool
  | [], _ => true
  | _ :: _, [] => false
  | a :: p, b :: l => a = b && leadSeg p l

/-- Python's `needle in hay` on lists of characters: `needle` occurs as a
contiguous segment of `hay`. -/
def containsSeq (needle : List Char) : List Char → Bool
  | [] => leadSeg needle []
  | c :: rest => leadSeg needle (c :: rest) || containsSeq needle rest

/-- Python's substring operator `needle in hay` on strings. -/
def containsSub (needle hay : String) : Bool :=
  containsSeq needle.data hay.data

/-! ## Embedding of `src/filters.py` -/

/-- Embeds `_normalize` from `src/filters.py`: lower-case the text, or
return the empty string when the value is `None` (not a `str`). -/
def normalizeText (text : Option String) : String :=
  match text with
  | some s => strLower s
  | none => ""

/-- Embeds `must_have_any` from `src/filters.py`: `True` when any term,
lower-cased, occurs inside the normalised text. -/
def must_have_any (text : Option String) (terms : List String) : Bool :=
  let lower := normalizeText text
  terms.any (fun t => containsSub (strLower t) lower)

/-- Embeds `must_have_geo` from `src/filters.py`: truthy parts are
normalised, joined with single spaces, and the result is searched for any
lower-cased country name. -/
def must_have_geo (parts : List (Option String)) (countries : List String) : Bool :=
  let combined := " ".intercalate
    ((parts.filter (fun p => (p.getD "") ≠ "")).map normalizeText)
  countries.any (fun country => containsSub (strLower country) combined)

/-- Embeds `exclude_if_any` from `src/filters.py`: `True` when any term,
lower-cased, occurs inside the normalised text. -/
def exclude_if_any (text : Option String) (terms : List String) : Bool :=
  let lower := normalizeText text
  terms.any (fun term => containsSub (strLower term) lower)

/-- Embeds `sector_penalty` from `src/filters.py`: adds the configured
`fintech_penalty` weight when any fintech term occurs in the text. -/
def sector_penalty (text : Option String) (sector_terms : List (String × List String))
    (weights : List (String × Int)) : Int :=
  let lower := normalizeText text
  let fintech_terms := (sector_terms.lookup "fintech").getD []
  let penalty : Int := 0
  if fintech_terms.any (fun t => containsSub (strLower t) lower) then
    penalty + (weights.lookup "fintech_penalty").getD 0
  else
    penalty

/-! ## Embedding of `scoring.py` (config-driven scorer) -/

/-- The `CENTRAL_AMERICA` country set of `scoring.py`. -/
def CENTRAL_AMERICA : List String :=
  ["Belize", "Costa Rica", "El Salvador", "Guatemala", "Honduras", "Nicaragua", "Panama"]

/-- The `SOUTH_AMERICA` country set of `scoring.py`. -/
def SOUTH_AMERICA : List String :=
  ["Argentina", "Bolivia", "Brazil", "Chile", "Colombia", "Ecuador", "Guyana",
   "Paraguay", "Peru", "Suriname", "Uruguay", "Venezuela"]

/-- The `FINTECH_KEYWORDS` set of `scoring.py`. -/
def FINTECH_KEYWORDS : List String :=
  ["fintech", "financial technology", "banking", "payments", "lending",
   "credit", "debit", "neobank"]

/-- A startup dictionary as consumed by `score_startup`: the optional keys
`location`, `description` and `founder_genders`; `dict.get` with its
default is `Option.getD`. -/
structure Startup where
  location : Option String
  description : Option String
  founder_genders : Option (List String)
deriving DecidableEq

/-- The configuration dictionary as consumed by `score_startup`: only the
optional `weights` mapping matters, modelled as an association list with
the first binding of a key taking precedence (`dict.get key, 0` becomes
`(List.lookup key w).getD 0`); weights are integers per the configuration
schema. -/
structure ScoringConfig where
  weights : Option (List (String × Int))
deriving DecidableEq

/-- Lookup of a weight with Python's `weights.get(key, 0)` semantics. -/
def weightOf (w : List (String × Int)) (key : String) : Int :=
  (w.lookup key).getD 0

/-- Embeds `score_startup` from `scoring.py`: adds the Central-America
weight when the lower-cased location contains a Central-American country,
otherwise (elif) the south-of-Mexico weight when it contains a
South-American country; adds the fintech penalty weight when the
description contains a fintech keyword; adds the female-founder boost when
any founder gender, lower-cased, is female/woman/women.  The result is the
plain sum: the function performs no clamping. -/
def score_startup (startup : Startup) (config : ScoringConfig) : Int :=
  let weights := config.weights.getD []
  let score : Int := 0
  let location := startup.location.getD ""
  let location_lower := strLower location
  let score :=
    if CENTRAL_AMERICA.any (fun country => containsSub (strLower country) location_lower) then
      score + weightOf weights "central_america_presence"
    else if SOUTH_AMERICA.any (fun country => containsSub (strLower country) location_lower) then
      score + weightOf weights "south_of_mexico_presence"
    else
      score
  let description := startup.description.getD ""
  let description_lower := strLower description
  let score :=
    if FINTECH_KEYWORDS.any (fun keyword => containsSub keyword description_lower) then
      score + weightOf weights "fintech_keyword_penalty"
    else
      score
  let genders := startup.founder_genders.getD []
  let genders_lower := genders.map strLower
  let score :=
    if genders_lower.any (fun g => g = "female" || g = "woman" || g = "women") then
      score + weightOf weights "female_founder_boost"
    else
      score
  score

/-! ## Embedding of `src/sourcing.py` (`Config` constants and `TextAnalyzer`)

The repository file is stored with doubly-encoded accents, so the term
lists and the regex character classes contain the literal characters
`√`, `≠`, `≥`, … ; the embedding reproduces them byte-for-byte.  Word
characters for `\b` are modelled as ASCII alphanumerics, underscore and
the accented letters that occur in the source's character classes (the
character sets the program's own constants can produce). -/

/-- The `Config.SECTOR_BLACKLIST` list of `src/sourcing.py`. -/
def SECTOR_BLACKLIST : List String :=
  ["fintech", "payments", "lending", "buy now pay later",
   "wallet", "neobank", "crypto exchange", "remittance"]

/-- The `Config.POST_REVENUE_TERMS` list of `src/sourcing.py`. -/
def POST_REVENUE_TERMS : List String :=
  ["post-revenue", "revenue", "facturaci√≥n", "ingresos", "ARR", "MRR",
   "paying customers", "clientes de pago", "contratos", "invoices",
   "compras recurrentes"]

/-- The `Config.ENTERPRISE_SIGNALS` list of `src/sourcing.py`. -/
def ENTERPRISE_SIGNALS : List String :=
  ["enterprise", "B2B", "contract", "pilot", "paid pilot",
   "cliente corporativo", "empresa"]

/-- The `Config.FEMALE_NAMES` list of `src/sourcing.py`. -/
def FEMALE_NAMES : List String :=
  ["ana", "mar√≠a", "maria", "camila", "daniela", "gabriela", "valentina",
   "isabella", "sofia", "sof√≠a", "fernanda", "luisa", "laura", "andrea",
   "carla", "carolina", "paula", "juliana", "claudia", "patricia",
   "mariana", "bianca", "bruna", "aline", "renata", "talita", "carol",
   "alejandra", "ximena", "pauline", "ines", "in√©s", "beatriz", "raquel",
   "cecilia", "catalina", "silvia", "ver√≥nica", "veronica"]

/-- First character class of `TextAnalyzer.NAME_PATTERN`: `A`–`Z` plus the
literal characters appearing in the source after the range. -/
def upperClass (c : Char) : Bool :=
  ('A' ≤ c && c ≤ 'Z') || charIn c ['√', 'Å', 'â', 'ç', 'ì', 'ö', 'ë']

/-- Second character class of `TextAnalyzer.NAME_PATTERN`: `a`–`z` plus the
literal characters appearing in the source after the range. -/
def lowerClass (c : Char) : Bool :=
  ('a' ≤ c && c ≤ 'z') || charIn c ['√', '°', '©', '≠', '≥', '∫', '±']

/-- Regex `\s`: one whitespace character. -/
def isSpaceChar (c : Char) : Bool :=
  c = ' ' || c = '\t' || c = '\n' || c = '\r' || c = '\x0b' || c = '\x0c'

/-- Regex word character (for `\b`): alphanumeric, underscore, or one of
the accented letters of the source's character classes. -/
def isWordChar (c : Char) : Bool :=
  c.isAlphanum || c = '_' || charIn c ['Å', 'â', 'ç', 'ì', 'ö', 'ë']

/-- Word-character test lifted to the optional character next to a
position (`none` at the ends of the text). -/
def isWordOpt : Option Char → Bool
  | some c => isWordChar c
  | none => false

/-- Regex `\b` between an optional previous and next character: exactly
one of the two sides is a word character. -/
def wordBoundary (prev next : Option Char) : Bool :=
  xor (isWordOpt prev) (isWordOpt next)

/-- Backtracking for the trailing `[...]+\b` of `NAME_PATTERN`: starting
from the greedy run (given reversed) keep giving characters back to the
remainder until the word boundary holds.  Returns the kept run (in
order) and the remainder of the text. -/
def backToBoundary : List Char → List Char → Option (List Char × List Char)
  | [], _ => none
  | c :: revRun, rest =>
    if wordBoundary (some c) rest.head? then
      some ((c :: revRun).reverse, rest)
    else
      backToBoundary revRun (c :: rest)

/-- One attempted match of `NAME_PATTERN` at the head of the text, given
the character just before the position: `\b`, capitalised word, one
whitespace, capitalised word, `\b`.  The two `[...]+` runs are greedy;
only the final run needs backtracking for the trailing `\b` (the other
contexts are disjoint from the classes).  Returns both captured words and
the unconsumed remainder. -/
def tryNameAt (prev : Option Char) (l : List Char) : Option (String × String × List Char) :=
  match l with
  | [] => none
  | c0 :: rest =>
    if wordBoundary prev (some c0) && upperClass c0 then
      let run1 := rest.takeWhile lowerClass
      let rest1 := rest.dropWhile lowerClass
      if run1.isEmpty then none else
      match rest1 with
      | [] => none
      | s :: rest2 =>
        if isSpaceChar s then
          match rest2 with
          | [] => none
          | c1 :: rest3 =>
            if upperClass c1 then
              let run2 := rest3.takeWhile lowerClass
              let rest4 := rest3.dropWhile lowerClass
              if run2.isEmpty then none else
              match backToBoundary run2.reverse rest4 with
              | some (kept, remainder) =>
                some (⟨c0 :: run1⟩, ⟨c1 :: kept⟩, remainder)
              | none => none
            else none
        else none
    else none

/-- Fuelled scan implementing `NAME_PATTERN.findall`: leftmost,
non-overlapping matches, resuming after each match.  The fuel is the
length of the text plus one, which the scan never exhausts because every
step consumes at least one character. -/
def findNamesGo : Nat → Option Char → List Char → List (String × String)
  | 0, _, _ => []
  | _ + 1, _, [] => []
  | fuel + 1, prev, c :: rest =>
    match tryNameAt prev (c :: rest) with
    | some (n1, n2, remainder) =>
      (n1, n2) :: findNamesGo fuel n2.data.getLast? remainder
    | none => findNamesGo fuel (some c) rest

/-- Embeds `TextAnalyzer.NAME_PATTERN.findall(text)`: the list of captured
capitalised-word pairs. -/
def findNames (text : String) : List (String × String) :=
  findNamesGo (text.data.length + 1) none text.data

/-- Embeds `TextAnalyzer.contains_terms` from `src/sourcing.py`. -/
def contains_terms (text : String) (terms : List String) : Bool :=
  let text_lower := strLower text
  terms.any (fun term => containsSub (strLower term) text_lower)

/-- The `founder_indicators` list local to `detect_female_founder`; note
that the source checks these against the lower-cased text without
lower-casing the indicators themselves, so `CEO`/`CTO` can never match. -/
def founder_indicators : List String :=
  ["founded by", "co-founded by", "cofundada por", "fundada por",
   "fundado por", "cofounder", "co-founder", "fundadora",
   "fundador", "CEO", "CTO"]

/-- Embeds `TextAnalyzer.detect_female_founder` from `src/sourcing.py`:
require a founder indicator in the lower-cased text, then scan the
original text for capitalised name pairs whose lower-cased first name is
one of `FEMALE_NAMES`. -/
def detect_female_founder (text : String) : Bool :=
  let text_lower := strLower text
  if !founder_indicators.any (fun ind => containsSub ind text_lower) then
    false
  else
    (findNames text).any (fun n => FEMALE_NAMES.contains (strLower n.1))

/-- Embeds `TextAnalyzer.calculate_score` from `src/sourcing.py`: the
hardcoded 3/3/2/1/−2 weights, clamped into `[0, 10]` by
`max(0, min(10, score))`. -/
def calculate_score (country : String) (text : String) : Int :=
  let score : Int := 0
  let score := if country ≠ "" then score + 3 else score
  let score := if contains_terms text POST_REVENUE_TERMS then score + 3 else score
  let score := if detect_female_founder text then score + 2 else score
  let score := if contains_terms text ENTERPRISE_SIGNALS then score + 1 else score
  let score := if contains_terms text SECTOR_BLACKLIST then score - 2 else score
  max 0 (min 10 score)

/-! ## Embedding of `src/dedupe.py`

Rows are dictionaries; the keys `dedupe_rows` touches are `url`, `title`,
`company`, `score` and `timestamp`, each possibly absent (`Option`).
Python truthiness of a string (`row_url and ex_url`) is "present and
non-empty"; `row.get("title") or ""` is `Option.getD` composed with
nothing further since an empty string stays empty.  The similarity
function (`rapidfuzz.fuzz.token_sort_ratio`, an external dependency) is a
parameter `sim`; the in-repo fallback `_Fallback.token_sort_ratio` is
`fallbackRatio` below. -/

/-- A lead row as consumed by `dedupe_rows`. -/
structure LeadRow where
  url : Option String
  title : Option String
  company : Option String
  score : Option Int
  timestamp : Option String
deriving DecidableEq

/-- Embeds `_Fallback.token_sort_ratio` from `src/dedupe.py`: 100 when the
two strings are equal, 0 otherwise. -/
def fallbackRatio (a b : String) : Nat :=
  if a = b then 100 else 0

/-- Embeds `_better` from `src/dedupe.py`: the new row replaces the
existing one when its score (default 0) is strictly higher, or on equal
scores when its timestamp string (default `""`) is lexicographically
strictly later. -/
def betterRow (new existing : LeadRow) : Bool :=
  if new.score.getD 0 ≠ existing.score.getD 0 then
    decide (new.score.getD 0 > existing.score.getD 0)
  else
    decide (new.timestamp.getD "" > existing.timestamp.getD "")

/-- The equivalence test of the inner loop of `dedupe_rows`: both URLs
truthy and equal, or the lower-cased titles and the lower-cased companies
both reach the similarity threshold. -/
def rowsMatch (sim : String → String → Nat) (thresh : Nat) (row existing : LeadRow) : Bool :=
  (match row.url, existing.url with
   | some a, some b => a ≠ "" && b ≠ "" && a = b
   | _, _ => false)
  || (sim (strLower (row.title.getD "")) (strLower (existing.title.getD "")) ≥ thresh
      && sim (strLower (row.company.getD "")) (strLower (existing.company.getD "")) ≥ thresh)

/-- One step of `dedupe_rows`: scan the accepted survivors in order for
the first equivalence match; replace it when the new row is better, keep
it otherwise; append the new row at the end when nothing matches. -/
def insertRow (sim : String → String → Nat) (thresh : Nat) (row : LeadRow) :
    List LeadRow → List LeadRow
  | [] => [row]
  | ex :: rest =>
    if rowsMatch sim thresh row ex then
      (if betterRow row ex then row else ex) :: rest
    else
      ex :: insertRow sim thresh row rest

/-- The fold of `dedupe_rows` over the input rows, carrying the list of
survivors. -/
def dedupeGo (sim : String → String → Nat) (thresh : Nat)
    (deduped : List LeadRow) : List LeadRow → List LeadRow
  | [] => deduped
  | row :: rows => dedupeGo sim thresh (insertRow sim thresh row deduped) rows

/-- Embeds `dedupe_rows` from `src/dedupe.py`, for a given similarity
function and threshold. -/
def dedupe_rows (sim : String → String → Nat) (thresh : Nat)
    (rows : List LeadRow) : List LeadRow :=
  dedupeGo sim thresh [] rows

/-- `dedupe_rows` at its default threshold `title_thresh = 90`. -/
def dedupe_rows_default (sim : String → String → Nat) (rows : List LeadRow) : List LeadRow :=
  dedupe_rows sim 90 rows

/-! ## The Classifier (`classify_row`)

The repository's tests (`src/tests/test_filters.py`) import `Row`,
`classify_row` and `load_config` from `src.sourcing`, but no definition of
them exists under `src/`; only the signal helpers of `src/filters.py` do.
The classifier is therefore modelled from the specification (§4.2, §4.3
and the configuration schema of §6), using the source-embedded filter
functions for the signal tests. -/

/-- Modelled from the spec: the `Row` constructed by the tests with
`title`, `snippet` and `url` fields (absent optional fields default to
empty/`None`). -/
structure Row where
  title : Option String
  snippet : Option String
  url : Option String
deriving DecidableEq

/-- Modelled from the spec: the configuration schema of §6 — four weighted
signal categories, exclusion terms and the two thresholds
(`min_score_to_append` default 4, `min_score_to_review` default 2). -/
structure SpecConfig where
  geo_countries : List String
  geo_weight : Int
  post_revenue_keywords : List String
  post_revenue_weight : Int
  enterprise_keywords : List String
  enterprise_weight : Int
  fintech_penalty_keywords : List String
  fintech_penalty_weight : Int
  exclude_terms : List String
  min_score_to_append : Int
  min_score_to_review : Int
deriving DecidableEq

/-- Modelled from the spec: the title+snippet text blob the Classifier
matches keyword categories and exclusion terms against. -/
def combinedText (row : Row) : String :=
  row.title.getD "" ++ " " ++ row.snippet.getD ""

/-- Modelled from the spec: the Scorer of §4.2 — sum the weight of every
category the Signal Matcher reports present (geo over the
title/snippet/url parts, keyword categories over the combined text), then
clamp into `[0, 10]`. -/
def spec_score (row : Row) (cfg : SpecConfig) : Int :=
  let text := combinedText row
  let geo := if must_have_geo [row.title, row.snippet, row.url] cfg.geo_countries then
    cfg.geo_weight else 0
  let pr := if must_have_any (some text) cfg.post_revenue_keywords then
    cfg.post_revenue_weight else 0
  let ent := if must_have_any (some text) cfg.enterprise_keywords then
    cfg.enterprise_weight else 0
  let fin := if must_have_any (some text) cfg.fintech_penalty_keywords then
    cfg.fintech_penalty_weight else 0
  max 0 (min 10 (geo + pr + ent + fin))

/-- Modelled from the spec: `classify_row`, the Classifier of §4.3 —
exclusion terms force `drop`; otherwise post-revenue and geo signals
together with `score >= min_score_to_append` give `lead`; otherwise
`score >= min_score_to_review` gives `review`; otherwise `drop`. -/
def classify_row (row : Row) (cfg : SpecConfig) : String :=
  let text := combinedText row
  if exclude_if_any (some text) cfg.exclude_terms then
    "drop"
  else
    let score := spec_score row cfg
    if must_have_any (some text) cfg.post_revenue_keywords
        && must_have_geo [row.title, row.snippet, row.url] cfg.geo_countries
        && decide (score ≥ cfg.min_score_to_append) then
      "lead"
    else if score ≥ cfg.min_score_to_review then
      "review"
    else
      "drop"

/-- Written from the claim wording for the deduplication equivalence
(refinement target): two records are equivalent when both URLs are
present (non-empty) and exactly equal, or when the similarity of the
case-folded titles and the similarity of the case-folded company names
both reach the threshold. -/
def equivalentSpec (sim : String → String → Nat) (thresh : Nat) (r1 r2 : LeadRow) : Prop :=
  (∃ u, r1.url = some u ∧ r2.url = some u ∧ u ≠ "")
  ∨ (sim (strLower (r1.title.getD "")) (strLower (r2.title.getD "")) ≥ thresh
     ∧ sim (strLower (r1.company.getD "")) (strLower (r2.company.getD "")) ≥ thresh)

/-! ## Concrete example inputs used by witnesses and counterexamples -/

/-- A lead row with a URL and score 0. -/
def rowA : LeadRow := ⟨some "u", some "t1", some "c1", some 0, some "2024-01-01"⟩

/-- A lead row without a URL, fuzzy-distinct from `rowA`. -/
def rowB : LeadRow := ⟨none, some "tc", some "cc", some 0, some "2024-01-01"⟩

/-- A lead row sharing `rowA`'s URL and `rowB`'s title/company, with a
higher score. -/
def rowC : LeadRow := ⟨some "u", some "tc", some "cc", some 5, some "2024-01-01"⟩

/-- A startup located in Panama (a Central-American country) whose
location also mentions Brazil (a South-American country). -/
def startupPanamaBrazil : Startup := ⟨some "Panama and Brazil", none, none⟩

/-- A configuration whose Central-America weight alone exceeds 10. -/
def configBigWeight : ScoringConfig := ⟨some [("central_america_presence", 11)]⟩

/-- A configuration carrying both geographic weights. -/
def configBothGeo : ScoringConfig :=
  ⟨some [("central_america_presence", 3), ("south_of_mexico_presence", 7)]⟩

/-- A bounded configuration: every weight lies in `[0, 3]`. -/
def configBounded : ScoringConfig :=
  ⟨some [("central_america_presence", 3), ("female_founder_boost", 2)]⟩

/-- The classifier configuration the spec's concrete scenarios use:
geo weight 3 over Chile/Brazil, post-revenue weight 3, enterprise weight
1, fintech penalty −2, exclusion term `idea stage`, thresholds 4 and 2. -/
def demoConfig : SpecConfig :=
  ⟨["Chile", "Brazil"], 3, ["post-revenue", "revenue"], 3, ["enterprise"], 1,
   ["fintech"], -2, ["idea stage"], 4, 2⟩

/-- The spec's first concrete scenario row. -/
def demoLeadRow : Row := ⟨some "Startup post-revenue in Chile", some "", some "http://example.com"⟩

/-- The spec's exclusion scenario row. -/
def demoDropRow : Row := ⟨some "Idea stage project in Chile", some "", some "http://example.com"⟩

/-! ## Helper lemmas -/

/-- Clamping with `max 0 (min 10 _)` lands in `[0, 10]`. -/
theorem clamp_mem (y : Int) : 0 ≤ max 0 (min 10 y) ∧ max 0 (min 10 y) ≤ 10 := by
  constructor
  · exact le_max_left 0 (min 10 y)
  · exact max_le (by norm_num) (min_le_left 10 y)

/-- A successful association-list lookup produces a member of the list. -/
theorem lookup_mem {w : List (String × Int)} {k : String} {v : Int}
    (h : w.lookup k = some v) : (k, v) ∈ w := by
  induction w with
  | nil => simp [List.lookup] at h
  | cons p rest ih =>
    obtain ⟨a, b⟩ := p
    by_cases hk : k = a
    · subst hk
      rw [List.lookup] at h
      simp only [beq_self_eq_true, Option.some.injEq] at h
      subst h
      exact List.mem_cons_self _ _
    · have hbeq : (k == a) = false := by simp [hk]
      rw [List.lookup] at h
      simp only [hbeq] at h
      exact List.mem_cons_of_mem _ (ih h)

/-- Bound on a looked-up weight when every weight in the mapping is
bounded. -/
theorem weightOf_bounds {w : List (String × Int)} {lo hi : Int}
    (hbound : ∀ p ∈ w, lo ≤ p.2 ∧ p.2 ≤ hi) (hlo : lo ≤ 0) (hhi : 0 ≤ hi)
    (k : String) : lo ≤ weightOf w k ∧ weightOf w k ≤ hi := by
  unfold weightOf
  cases h : w.lookup k with
  | none => simpa using ⟨hlo, hhi⟩
  | some v => simpa using hbound (k, v) (lookup_mem h)

/-- Prepending an explicit zero binding for a key that is absent from the
weights mapping changes no lookup. -/
theorem weightOf_cons_zero {w : List (String × Int)} {k : String}
    (h : w.lookup k = none) (k' : String) :
    weightOf ((k, 0) :: w) k' = weightOf w k' := by
  unfold weightOf
  by_cases hk : k' = k
  · subst hk
    rw [List.lookup, h]
    simp only [beq_self_eq_true, Option.getD_some, Option.getD_none]
  · have hbeq : (k' == k) = false := by simp [hk]
    rw [List.lookup]
    simp only [hbeq]

/-- When a new row matches no accepted survivor, `insertRow` appends it at
the end. -/
theorem insertRow_no_match (sim : String → String → Nat) (t : Nat) (row : LeadRow) :
    ∀ acc : List LeadRow, (∀ ex ∈ acc, rowsMatch sim t row ex = false) →
    insertRow sim t row acc = acc ++ [row] := by
  intro acc
  induction acc with
  | nil => intro _; rfl
  | cons ex rest ih =>
    intro h
    have hex := h ex (List.mem_cons_self ex rest)
    rw [insertRow, if_neg (by simp [hex])]
    simp only [List.cons_append, List.cons.injEq, true_and]
    exact ih (fun e he => h e (List.mem_cons_of_mem _ he))

/-- When no later row matches an earlier one, the dedupe fold only ever
appends, so it returns the accumulated survivors followed by the input. -/
theorem dedupeGo_pairwise (sim : String → String → Nat) (t : Nat) :
    ∀ rows acc : List LeadRow,
    (acc ++ rows).Pairwise (fun a b => rowsMatch sim t b a = false) →
    dedupeGo sim t acc rows = acc ++ rows := by
  intro rows
  induction rows with
  | nil => intro acc _; simp [dedupeGo]
  | cons r rs ih =>
    intro acc h
    have hmatch : ∀ ex ∈ acc, rowsMatch sim t r ex = false := by
      intro ex hex
      exact (List.pairwise_append.mp h).2.2 ex hex r (by simp)
    rw [dedupeGo, insertRow_no_match sim t r acc hmatch]
    have hassoc : (acc ++ [r]) ++ rs = acc ++ r :: rs := by simp
    rw [ih (acc ++ [r]) (by rw [hassoc]; exact h)]
    exact hassoc

/-- A pairwise non-equivalent list is a fixed point of `dedupe_rows`. -/
theorem dedupe_rows_fixed (sim : String → String → Nat) (t : Nat)
    (rows : List LeadRow)
    (h : rows.Pairwise (fun a b => rowsMatch sim t b a = false)) :
    dedupe_rows sim t rows = rows := by
  unfold dedupe_rows
  exact dedupeGo_pairwise sim t rows [] (by simpa using h)

/-- `insertRow` grows the survivor list by at most one row. -/
theorem insertRow_length (sim : String → String → Nat) (t : Nat) (row : LeadRow) :
    ∀ acc : List LeadRow, (insertRow sim t row acc).length ≤ acc.length + 1 := by
  intro acc
  induction acc with
  | nil => simp [insertRow]
  | cons ex rest ih =>
    rw [insertRow]
    by_cases h : rowsMatch sim t row ex = true
    · simp [h]
    · rw [Bool.not_eq_true] at h
      simp only [h, Bool.false_eq_true, if_false, List.length_cons]
      omega

/-- The dedupe fold never produces more rows than it has seen. -/
theorem dedupeGo_length (sim : String → String → Nat) (t : Nat) :
    ∀ rows acc : List LeadRow,
    (dedupeGo sim t acc rows).length ≤ acc.length + rows.length := by
  intro rows
  induction rows with
  | nil => intro acc; simp [dedupeGo]
  | cons r rs ih =>
    intro acc
    rw [dedupeGo]
    calc (dedupeGo sim t (insertRow sim t r acc) rs).length
        ≤ (insertRow sim t r acc).length + rs.length := ih _
      _ ≤ (acc.length + 1) + rs.length := by
          have := insertRow_length sim t r acc
          omega
      _ = acc.length + (rs.length + 1) := by omega
      _ = acc.length + (r :: rs).length := by simp

/-! ## Claim theorems -/

/-- C1 (amended): `TextAnalyzer.calculate_score` returns a value in
`[0, 10]` for every country string and text; `score_startup` returns the
unclamped sum of the matched category weights, so its value lies in
`[0, 10]` only under bounded weights — in particular whenever every
configured weight lies in `[0, 3]`. -/
theorem c1_score_range :
    (∀ country text, 0 ≤ calculate_score country text ∧ calculate_score country text ≤ 10)
    ∧ (∀ (s : Startup) (cfg : ScoringConfig),
        (∀ p ∈ cfg.weights.getD [], 0 ≤ p.2 ∧ p.2 ≤ 3) →
        0 ≤ score_startup s cfg ∧ score_startup s cfg ≤ 10) := by
  constructor
  · intro country text
    unfold calculate_score
    exact clamp_mem _
  · intro s cfg hb
    have h1 := weightOf_bounds hb (by norm_num) (by norm_num) "central_america_presence"
    have h2 := weightOf_bounds hb (by norm_num) (by norm_num) "south_of_mexico_presence"
    have h3 := weightOf_bounds hb (by norm_num) (by norm_num) "fintech_keyword_penalty"
    have h4 := weightOf_bounds hb (by norm_num) (by norm_num) "female_founder_boost"
    unfold score_startup
    dsimp only
    split_ifs <;> constructor <;> omega

/-- C1 counterexample: with a Central-America weight of 11, the
config-driven scorer returns 11, outside `[0, 10]`. -/
theorem c1_counterexample :
    ¬(0 ≤ score_startup startupPanamaBrazil configBigWeight
      ∧ score_startup startupPanamaBrazil configBigWeight ≤ 10) := by
  decide

/-- C1 witness: a bounded configuration at a concrete startup stays in
`[0, 10]`. -/
theorem c1_witness :
    0 ≤ score_startup startupPanamaBrazil configBounded
    ∧ score_startup startupPanamaBrazil configBounded ≤ 10 :=
  c1_score_range.2 startupPanamaBrazil configBounded (by decide)

/-- C2: a record matching any configured exclusion term in its combined
title+snippet text is classified `drop` regardless of score, and
`exclude_if_any` reports a match exactly when some term occurs
case-insensitively in the (possibly `None`) text. -/
theorem c2_exclusion_drop :
    (∀ (row : Row) (cfg : SpecConfig),
      exclude_if_any (some (combinedText row)) cfg.exclude_terms = true →
      classify_row row cfg = "drop")
    ∧ (∀ (text : Option String) (terms : List String),
      exclude_if_any text terms = true ↔
        ∃ term ∈ terms, containsSub (strLower term) (normalizeText text) = true) := by
  constructor
  · intro row cfg h
    unfold classify_row
    rw [if_pos h]
  · intro text terms
    simp [exclude_if_any, List.any_eq_true]

/-- C2 witness: the spec's exclusion scenario is dropped. -/
theorem c2_witness : classify_row demoDropRow demoConfig = "drop" :=
  c2_exclusion_drop.1 demoDropRow demoConfig (by decide)

/-- C3: with no exclusion match, both the post-revenue signal (computed by
`must_have_any`) and the geo signal (computed by `must_have_geo` over
title/snippet/url) present, and score at least `min_score_to_append`, the
classification is `lead`; the two signal helpers are case-insensitive
substring matchers. -/
theorem c3_lead_rule :
    (∀ (row : Row) (cfg : SpecConfig),
      exclude_if_any (some (combinedText row)) cfg.exclude_terms = false →
      must_have_any (some (combinedText row)) cfg.post_revenue_keywords = true →
      must_have_geo [row.title, row.snippet, row.url] cfg.geo_countries = true →
      spec_score row cfg ≥ cfg.min_score_to_append →
      classify_row row cfg = "lead")
    ∧ (∀ (text : Option String) (terms : List String),
      must_have_any text terms = true ↔
        ∃ t ∈ terms, containsSub (strLower t) (normalizeText text) = true)
    ∧ (∀ (parts : List (Option String)) (countries : List String),
      must_have_geo parts countries = true ↔
        ∃ c ∈ countries, containsSub (strLower c)
          (" ".intercalate ((parts.filter (fun p => (p.getD "") ≠ "")).map normalizeText)) = true) := by
  refine ⟨?_, ?_, ?_⟩
  · intro row cfg h1 h2 h3 h4
    have h4' : decide (spec_score row cfg ≥ cfg.min_score_to_append) = true :=
      decide_eq_true h4
    unfold classify_row
    rw [if_neg (by simp [h1])]
    dsimp only
    rw [if_pos (by simp [h2, h3, h4'])]
  · intro text terms
    simp [must_have_any, List.any_eq_true]
  · intro parts countries
    simp [must_have_geo, List.any_eq_true]

/-- C3 witness: the spec's first concrete scenario is classified `lead`. -/
theorem c3_witness : classify_row demoLeadRow demoConfig = "lead" :=
  c3_lead_rule.1 demoLeadRow demoConfig (by decide) (by decide) (by decide) (by decide)

/-- Characterisation of the dedupe equivalence test, shared by the
equivalence and fallback analyses. -/
theorem rowsMatch_iff (sim : String → String → Nat) (thresh : Nat) (r1 r2 : LeadRow) :
    rowsMatch sim thresh r1 r2 = true ↔ equivalentSpec sim thresh r1 r2 := by
  unfold rowsMatch equivalentSpec
  cases hu1 : r1.url with
  | none =>
    simp [Bool.or_eq_true, Bool.and_eq_true, decide_eq_true_eq, ge_iff_le]
  | some a =>
    cases hu2 : r2.url with
    | none =>
      simp [Bool.or_eq_true, Bool.and_eq_true, decide_eq_true_eq, ge_iff_le]
    | some b =>
      simp only [Bool.or_eq_true, Bool.and_eq_true, decide_eq_true_eq, ge_iff_le,
        Option.some.injEq, ne_eq]
      aesop

/-- The fallback similarity reaches 90 exactly on equal strings. -/
theorem fallback_ge_iff (a b : String) : (fallbackRatio a b ≥ 90) ↔ a = b := by
  unfold fallbackRatio
  split <;> simp_all

/-- C4: the Deduplicator judges two records equivalent exactly when their
URLs are both present and equal, or both the title similarity and the
company similarity (case-insensitive) reach the threshold; the default
threshold is 90. -/
theorem c4_equivalence :
    (∀ (sim : String → String → Nat) (thresh : Nat) (r1 r2 : LeadRow),
      rowsMatch sim thresh r1 r2 = true ↔ equivalentSpec sim thresh r1 r2)
    ∧ (∀ (sim : String → String → Nat) (rows : List LeadRow),
      dedupe_rows_default sim rows = dedupe_rows sim 90 rows) := by
  exact ⟨rowsMatch_iff, fun _ _ => rfl⟩

/-- C4 witness: two rows sharing a non-empty URL are judged equivalent. -/
theorem c4_witness : equivalentSpec fallbackRatio 90 rowC rowA :=
  (c4_equivalence.1 fallbackRatio 90 rowC rowA).mp (by decide)

/-- C5: survivor selection is deterministic — the new row replaces the
survivor exactly when its score is strictly higher or, on equal scores,
its timestamp string is lexicographically later; on a two-element batch
of equivalent rows the survivor is the better row. -/
theorem c5_survivor :
    (∀ new existing : LeadRow, betterRow new existing = true ↔
      (existing.score.getD 0 < new.score.getD 0 ∨
       (new.score.getD 0 = existing.score.getD 0 ∧
        existing.timestamp.getD "" < new.timestamp.getD "")))
    ∧ (∀ (sim : String → String → Nat) (thresh : Nat) (r1 r2 : LeadRow),
      rowsMatch sim thresh r2 r1 = true →
      dedupe_rows sim thresh [r1, r2] = [if betterRow r2 r1 = true then r2 else r1]) := by
  constructor
  · intro new existing
    unfold betterRow
    split_ifs with hne
    · simp only [gt_iff_lt, decide_eq_true_eq]
      constructor
      · exact Or.inl
      · rintro (hlt | ⟨heq, _⟩)
        · exact hlt
        · exact absurd heq hne
    · push_neg at hne
      simp [hne, gt_iff_lt, decide_eq_true_eq, lt_irrefl]
  · intro sim thresh r1 r2 h
    simp [dedupe_rows, dedupeGo, insertRow, h]

/-- C5 witness: on two URL-equal rows the higher-scoring one decides the
survivor. -/
theorem c5_witness :
    dedupe_rows fallbackRatio 90 [rowA, rowC] = [if betterRow rowC rowA = true then rowC else rowA] :=
  c5_survivor.2 fallbackRatio 90 rowA rowC (by decide)

/-- C6 counterexample: deduplication is not idempotent.  `rowC` replaces
`rowA` through the URL match after `rowB` was accepted, yet `rowC` is
also fuzzy-equivalent to `rowB`, so the first pass returns two
equivalent survivors and the second pass merges them. -/
theorem c6_counterexample :
    dedupe_rows fallbackRatio 90 (dedupe_rows fallbackRatio 90 [rowA, rowB, rowC]) ≠
    dedupe_rows fallbackRatio 90 [rowA, rowB, rowC] := by
  decide

/-- C6 (amended): deduplication is idempotent on every batch whose
deduplicated output contains no two equivalent rows — when a replacement
survivor is equivalent to another survivor the output can retain
equivalent rows, and a second pass merges them (see the
counterexample). -/
theorem c6_idempotent_on_clean :
    ∀ (sim : String → String → Nat) (thresh : Nat) (rows : List LeadRow),
    (dedupe_rows sim thresh rows).Pairwise
      (fun a b => rowsMatch sim thresh b a = false) →
    dedupe_rows sim thresh (dedupe_rows sim thresh rows) = dedupe_rows sim thresh rows := by
  intro sim thresh rows h
  exact dedupe_rows_fixed sim thresh _ h

/-- C6 witness: a duplicate-free two-row batch is a fixed point of a
second pass. -/
theorem c6_witness :
    dedupe_rows fallbackRatio 90 (dedupe_rows fallbackRatio 90 [rowA, rowB]) =
    dedupe_rows fallbackRatio 90 [rowA, rowB] :=
  c6_idempotent_on_clean fallbackRatio 90 [rowA, rowB] (by decide)

/-- C7: a batch in which no record is equivalent to an earlier one passes
through `dedupe_rows` unchanged in order and content. -/
theorem c7_no_duplicates_unchanged :
    ∀ (sim : String → String → Nat) (thresh : Nat) (rows : List LeadRow),
    rows.Pairwise (fun a b => rowsMatch sim thresh b a = false) →
    dedupe_rows sim thresh rows = rows := by
  intro sim thresh rows h
  exact dedupe_rows_fixed sim thresh rows h

/-- C7 witness: a concrete duplicate-free batch is returned unchanged. -/
theorem c7_witness : dedupe_rows fallbackRatio 90 [rowA, rowB] = [rowA, rowB] :=
  c7_no_duplicates_unchanged fallbackRatio 90 [rowA, rowB] (by decide)

/-- C8: under the fallback similarity (100 on equal strings, 0 otherwise)
the equivalence test degrades to exact equality of the case-folded
titles and company names (or a URL match), and deduplication totally
evaluates on every batch, never growing it. -/
theorem c8_fallback_degradation :
    (∀ a b : String, fallbackRatio a b = if a = b then 100 else 0)
    ∧ (∀ r1 r2 : LeadRow, rowsMatch fallbackRatio 90 r1 r2 = true ↔
        ((∃ u, r1.url = some u ∧ r2.url = some u ∧ u ≠ "")
         ∨ (strLower (r1.title.getD "") = strLower (r2.title.getD "")
            ∧ strLower (r1.company.getD "") = strLower (r2.company.getD ""))))
    ∧ (∀ rows : List LeadRow, (dedupe_rows fallbackRatio 90 rows).length ≤ rows.length) := by
  refine ⟨fun a b => rfl, ?_, ?_⟩
  · intro r1 r2
    rw [rowsMatch_iff]
    unfold equivalentSpec
    rw [fallback_ge_iff, fallback_ge_iff]
  · intro rows
    unfold dedupe_rows
    simpa using dedupeGo_length fallbackRatio 90 rows []

/-- C9: the config-driven scorer treats every absent weight key as zero
weight: prepending an explicit zero binding for an absent listed key does
not change any score, and a missing `weights` mapping scores like an
empty one. -/
theorem c9_missing_weight_keys :
    (∀ (s : Startup) (w : List (String × Int)) (k : String),
      k ∈ ["central_america_presence", "south_of_mexico_presence",
           "fintech_keyword_penalty", "female_founder_boost"] →
      w.lookup k = none →
      score_startup s ⟨some ((k, 0) :: w)⟩ = score_startup s ⟨some w⟩)
    ∧ (∀ s : Startup, score_startup s ⟨none⟩ = score_startup s ⟨some []⟩) := by
  constructor
  · intro s w k _ hnone
    unfold score_startup
    simp only [Option.getD_some, weightOf_cons_zero hnone]
  · intro s
    rfl

/-- C9 witness: an explicit zero Central-America weight scores like the
empty mapping. -/
theorem c9_witness :
    score_startup startupPanamaBrazil ⟨some [("central_america_presence", 0)]⟩ =
    score_startup startupPanamaBrazil ⟨some []⟩ :=
  c9_missing_weight_keys.1 startupPanamaBrazil [] "central_america_presence"
    (by decide) rfl

/-- C10: at most one geographic weight is added — when the location
contains a Central-American country the score uses only the
Central-America weight (even if a South-American country also occurs),
and the south-of-Mexico weight enters only when no Central-American
country matches. -/
theorem c10_geo_precedence :
    (∀ (s : Startup) (cfg : ScoringConfig),
      CENTRAL_AMERICA.any
        (fun country => containsSub (strLower country) (strLower (s.location.getD ""))) = true →
      score_startup s cfg =
        weightOf (cfg.weights.getD []) "central_america_presence"
        + (if FINTECH_KEYWORDS.any
              (fun keyword => containsSub keyword (strLower (s.description.getD ""))) = true
           then weightOf (cfg.weights.getD []) "fintech_keyword_penalty" else 0)
        + (if ((s.founder_genders.getD []).map strLower).any
              (fun g => g = "female" || g = "woman" || g = "women") = true
           then weightOf (cfg.weights.getD []) "female_founder_boost" else 0))
    ∧ (∀ (s : Startup) (cfg : ScoringConfig),
      CENTRAL_AMERICA.any
        (fun country => containsSub (strLower country) (strLower (s.location.getD ""))) = false →
      SOUTH_AMERICA.any
        (fun country => containsSub (strLower country) (strLower (s.location.getD ""))) = true →
      score_startup s cfg =
        weightOf (cfg.weights.getD []) "south_of_mexico_presence"
        + (if FINTECH_KEYWORDS.any
              (fun keyword => containsSub keyword (strLower (s.description.getD ""))) = true
           then weightOf (cfg.weights.getD []) "fintech_keyword_penalty" else 0)
        + (if ((s.founder_genders.getD []).map strLower).any
              (fun g => g = "female" || g = "woman" || g = "women") = true
           then weightOf (cfg.weights.getD []) "female_founder_boost" else 0)) := by
  constructor
  · intro s cfg h
    simp only [score_startup]
    rw [if_pos h]
    split_ifs <;> omega
  · intro s cfg hca hsa
    have hca' : ¬((CENTRAL_AMERICA.any
        (fun country => containsSub (strLower country) (strLower (s.location.getD "")))) = true) := by
      simp [hca]
    simp only [score_startup]
    rw [if_neg hca', if_pos hsa]
    split_ifs <;> omega

/-- C10 witness: a location naming both Panama and Brazil receives only
the Central-America weight. -/
theorem c10_witness : score_startup startupPanamaBrazil configBothGeo = 3 := by
  rw [c10_geo_precedence.1 startupPanamaBrazil configBothGeo (by decide)]
  decide

end VCSourcing
